import Mathlib

/-!
Verification development for the EM-automate job-queue orchestration core.

The embedded code is the pair of Pinia stores in
`src/frontend/src/constants/menu-structure.ts`:

* `useTaskStore`   — queue CRUD (`addTask`, `removeTask`, `updateTask`,
  `moveTaskUp`, `moveTaskDown`, `clearQueue`), the execution protocol
  (`startExecution`, `stopExecution`), and the progress-polling loop
  (`startProgressPolling` / `stopProgressPolling` and the interval
  callback).
* `useSimpleTaskStore` — the simplified store; we embed its polling
  callback, whose terminal-detection test differs from `useTaskStore`.

Reactive refs become fields of an explicit state record; each store
method becomes a pure function on that record.  A method that awaits a
backend response takes the response outcome as an explicit argument.
The repeating `setInterval` callback is embedded as `tickApply`
(the callback body, exactly as written, with no cancellation guard) and
`runTicks` (the scheduler: a tick only fires while an interval handle is
installed, i.e. while `pollingActive` is true).
-/

namespace TaskStore

/-- The `TaskProgress` record: `{ current, total, status, isRunning }`. -/
structure TaskProgress where
  current : Nat
  total : Nat
  status : String
  isRunning : Bool
deriving Repr, DecidableEq

/-- A queue entry (`ExtendedQueueItem`).  `run_count` is optional in the
TypeScript interface, hence `Option Nat`.  Fields of the item that no
store method reads or writes (`params`, `priority`, `addedAt`, ...) are
projected away. -/
structure Task where
  id : String
  name : String
  run_count : Option Nat
  status : String
deriving Repr, DecidableEq

/-- The argument of `addTask`: a task without `id`/`addedAt`/`status`. -/
structure NewTask where
  name : String
  run_count : Option Nat
deriving Repr, DecidableEq

/-- A `Partial<ExtendedQueueItem>` argument of `updateTask`: every field
either absent (keep the old value) or present (overwrite). -/
structure TaskUpdate where
  name : Option String
  run_count : Option Nat
  status : Option String
deriving Repr, DecidableEq

/-- The store state: the reactive refs of `useTaskStore`.
`pollingActive` models `progressPollingInterval.value !== null`. -/
structure State where
  taskQueue : List Task
  isRunning : Bool
  currentProgress : TaskProgress
  error : Option String
  pollingActive : Bool
deriving Repr, DecidableEq

/-- `totalTasks`: `taskQueue.reduce((sum, task) => sum + (task.run_count || 1), 0)`,
evaluated on a queue whose slots all hold tasks (the computed never
throws there).  JavaScript `||` sends both a missing and a zero
`run_count` to `1`.  `totalTasksQ` below is the same reduce over raw
queue slots, where an `undefined` slot makes it throw. -/
def totalTasks (l : List Task) : Nat :=
  l.foldl (fun sum task =>
    sum + (match task.run_count with
           | some n => if n == 0 then 1 else n
           | none => 1)) 0

/-- One slot of the live `taskQueue` JS array: a task, or the
`undefined` that `moveTaskDown`'s unguarded not-found branch writes
into slot 0 (see `moveTaskDown`). -/
abbrev Entry := Option Task

/-- Swap the entries at positions `i` and `j` (the destructuring swap
`[q[i], q[j]] = [q[j], q[i]]`). -/
def swapAt (l : List α) (i j : Nat) : List α :=
  match l[i]?, l[j]? with
  | some a, some b => (l.set i b).set j a
  | _, _ => l

/-- The task object `addTask` pushes: the argument plus a generated `id`
(passed in here, since `Date.now()` + random suffix is environmental)
and `status: 'pending'`. -/
def initTask (t : NewTask) (newId : String) : Task :=
  { id := newId, name := t.name, run_count := t.run_count, status := "pending" }

/-- `Object.assign(task, updates)` for the modelled fields. -/
def applyUpdate (t : Task) (u : TaskUpdate) : Task :=
  { t with
    name := u.name.getD t.name
    run_count := match u.run_count with
                 | some n => some n
                 | none => t.run_count
    status := u.status.getD t.status }

/-- Result of running the JS callback `task => task.id === taskId`
through `findIndex` / `find` over the queue slots: the first matching
index (with the task `find` would return), not found, or a `TypeError`
thrown because the scan reached an `undefined` slot before any match
(`task.id` on `undefined` throws). -/
inductive ScanResult where
  | found (i : Nat) (t : Task)
  | notFound
  | threw
deriving Repr, DecidableEq

/-- `taskQueue.findIndex(task => task.id === taskId)` (and `find`,
which walks the same slots in the same order). -/
def scanIdx (taskId : String) : List Entry → ScanResult
  | [] => .notFound
  | none :: _ => .threw
  | some t :: es =>
    if t.id == taskId then .found 0 t
    else
      match scanIdx taskId es with
      | .found i u => .found (i + 1) u
      | r => r

/-- The slice of the store the queue-mutation methods touch: the queue
array itself, and the run flag that only `clearQueue` reads.  The
returned `Bool` of each method below is true when the method threw (a
`TypeError` escaping the scan; the methods are synchronous `void`
functions with no try/catch, and the throw precedes every mutation). -/
structure MState where
  taskQueue : List Entry
  isRunning : Bool
deriving Repr, DecidableEq

/-- `addTask`: push the new task.  No run-state check, no scan — it
cannot throw. -/
def addTask (s : MState) (t : NewTask) (newId : String) : MState × Bool :=
  ({ s with taskQueue := s.taskQueue ++ [some (initTask t newId)] }, false)

/-- `removeTask`: `findIndex` then `splice(index, 1)` guarded by
`index !== -1` — the not-found case is a genuine no-op. -/
def removeTask (s : MState) (taskId : String) : MState × Bool :=
  match scanIdx taskId s.taskQueue with
  | .threw => (s, true)
  | .found i _ => ({ s with taskQueue := s.taskQueue.eraseIdx i }, false)
  | .notFound => (s, false)

/-- `updateTask`: `find` then in-place `Object.assign` — `find`
returning `undefined` skips the assignment, so not-found is a no-op. -/
def updateTask (s : MState) (taskId : String) (u : TaskUpdate) : MState × Bool :=
  match scanIdx taskId s.taskQueue with
  | .threw => (s, true)
  | .found i t => ({ s with taskQueue := s.taskQueue.set i (some (applyUpdate t u)) }, false)
  | .notFound => (s, false)

/-- `moveTaskUp`: swap with the predecessor when `index > 0` — a guard
that also excludes `findIndex`'s `-1`, so not-found is a no-op. -/
def moveTaskUp (s : MState) (taskId : String) : MState × Bool :=
  match scanIdx taskId s.taskQueue with
  | .threw => (s, true)
  | .found i _ =>
    (if 0 < i then { s with taskQueue := swapAt s.taskQueue (i - 1) i } else s, false)
  | .notFound => (s, false)

/-- `moveTaskDown`: swap with the successor when
`index < taskQueue.length - 1`.  Unlike `moveTaskUp`'s `index > 0`,
this guard does NOT exclude `findIndex`'s `-1`: on a non-empty queue
`-1 < length - 1` holds, the destructuring reads
`[queue[0], queue[-1]] = [first, undefined]` and writes `queue[-1]`
(a plain property, not an array slot) and `queue[0] = undefined` —
slot 0 is clobbered with `undefined`, without any exception.  On an
empty queue `-1 < -1` fails and nothing happens. -/
def moveTaskDown (s : MState) (taskId : String) : MState × Bool :=
  match scanIdx taskId s.taskQueue with
  | .threw => (s, true)
  | .found i _ =>
    (if i + 1 < s.taskQueue.length then { s with taskQueue := swapAt s.taskQueue i (i + 1) }
     else s, false)
  | .notFound =>
    match s.taskQueue with
    | [] => (s, false)
    | _ :: es => ({ s with taskQueue := none :: es }, false)

/-- `clearQueue`: empty the queue, but only when no run is active — the
guard `if (!isRunning.value)` makes it a silent no-op otherwise.  No
scan — it cannot throw. -/
def clearQueue (s : MState) : MState × Bool :=
  (if s.isRunning then s else { s with taskQueue := [] }, false)

/-- `totalTasks` evaluated over the live queue slots: the reduce
accesses `task.run_count` on each slot, so an `undefined` slot makes
the whole computation throw (`none`); JavaScript `||` sends both a
missing and a zero `run_count` to `1`. -/
def totalTasksQ (q : List Entry) : Option Nat :=
  q.foldl (fun acc e =>
    match acc, e with
    | some a, some task =>
      some (a + (match task.run_count with
                 | some n => if n == 0 then 1 else n
                 | none => 1))
    | _, _ => none) (some 0)

/-- `stopProgressPolling`: `clearInterval` and null out the handle.
Idempotent by construction. -/
def stopProgressPolling (s : State) : State :=
  { s with pollingActive := false }

/-- `startProgressPolling`: first `stopProgressPolling()`, then install a
fresh interval. -/
def startProgressPolling (s : State) : State :=
  { stopProgressPolling s with pollingActive := true }

/-- Outcome of the awaited `POST /api/tasks/execute`:
`accepted` = `response.data.success` truthy; `rejected msg` = backend
answered with `success` false and the optional `message`; `netError msg`
= the request itself threw with message `msg`. -/
inductive SubmitOutcome where
  | accepted
  | rejected (msg : Option String)
  | netError (msg : String)
deriving Repr, DecidableEq

/-- `startExecution`.  The returned `Bool` is true when the function
threw (the `catch` block re-throws).  The empty-queue throw happens
before any state is touched, so only the `catch` writes apply there. -/
def startExecution (s : State) (o : SubmitOutcome) : State × Bool :=
  if s.taskQueue.isEmpty then
    ({ s with
        error := some "任务队列为空"
        isRunning := false
        currentProgress := { s.currentProgress with isRunning := false } }, true)
  else
    let s1 : State :=
      { s with
          error := none
          isRunning := true
          currentProgress :=
            { current := 0
              total := totalTasks s.taskQueue
              status := "准备执行..."
              isRunning := true } }
    match o with
    | .accepted => (startProgressPolling s1, false)
    | .rejected m =>
      ({ s1 with
          error := some (m.getD "启动任务失败")
          isRunning := false
          currentProgress := { s1.currentProgress with isRunning := false } }, true)
    | .netError m =>
      ({ s1 with
          error := some m
          isRunning := false
          currentProgress := { s1.currentProgress with isRunning := false } }, true)

/-- Outcome of the awaited `POST /api/tasks/stop`: acknowledged, or the
request threw with message `msg`. -/
inductive StopOutcome where
  | ok
  | fail (msg : String)
deriving Repr, DecidableEq

/-- `stopExecution`.  The returned `Bool` is true when the stop request
was issued (`isRunning` was true).  The function never throws: the
`catch` block only records the error message. -/
def stopExecution (s : State) (o : StopOutcome) : State × Bool :=
  if s.isRunning then
    match o with
    | .ok =>
      ({ s with
          isRunning := false
          currentProgress := { s.currentProgress with isRunning := false, status := "已停止" }
          pollingActive := false }, true)
    | .fail m => ({ s with error := some m }, true)
  else (s, false)

/-- The progress object of a poll response (`response.data.data`): the
fields a JSON payload may or may not carry. -/
structure ProgressPatch where
  current : Option Nat
  total : Option Nat
  status : Option String
  isRunning : Option Bool
deriving Repr, DecidableEq

/-- The object-spread merge `{ ...currentProgress.value, ...progress }`:
every field present in the patch overwrites the local one. -/
def mergeProgress (p : TaskProgress) (d : ProgressPatch) : TaskProgress :=
  { current := d.current.getD p.current
    total := d.total.getD p.total
    status := d.status.getD p.status
    isRunning := d.isRunning.getD p.isRunning }

/-- A poll reply: `response.data?.success` and `response.data.data`. -/
structure PollReply where
  success : Bool
  data : Option ProgressPatch
deriving Repr, DecidableEq

/-- Body of the `useTaskStore` interval callback, run when its awaited
`GET /api/tasks/progress` resolves.  Terminal test: the raw incoming
`progress.status` equals `'completed'` or `'failed'` — the incoming
`isRunning` flag is not consulted.  The body contains no cancellation
check.  (`fetchTaskHistory`, called on the terminal branch, touches only
the task-history cache, which no modelled field holds.) -/
def tickApply (s : State) (r : PollReply) : State :=
  match r.success, r.data with
  | true, some d =>
    let merged := mergeProgress s.currentProgress d
    if d.status == some "completed" || d.status == some "failed" then
      { s with
          isRunning := false
          currentProgress := { merged with isRunning := false }
          pollingActive := false }
    else { s with currentProgress := merged }
  | _, _ => s

/-- One scheduled tick outcome: the request threw (`netFail`, caught and
only logged) or resolved with a reply. -/
inductive TickOutcome where
  | netFail
  | reply (r : PollReply)
deriving Repr, DecidableEq

/-- The interval scheduler: a tick only fires while an interval handle
is installed.  A failed tick leaves the state untouched (the `catch`
only logs). -/
def tickStep (s : State) (o : TickOutcome) : State :=
  if s.pollingActive then
    match o with
    | .netFail => s
    | .reply r => tickApply s r
  else s

/-- A run of scheduled ticks. -/
def runTicks (s : State) (outs : List TickOutcome) : State :=
  outs.foldl tickStep s

end TaskStore

namespace SimpleTaskStore

/-- The `useSimpleTaskStore` state slice its polling callback touches. -/
structure State where
  isRunning : Bool
  currentProgress : TaskStore.TaskProgress
  pollingActive : Bool
deriving Repr, DecidableEq

/-- Body of the `useSimpleTaskStore` interval callback.  Terminal test:
`progress.status === '执行完成' || progress.status === '执行失败' ||
!progress.isRunning` — a missing or false incoming `isRunning` is
terminal (JS `!undefined` is true). -/
def tickApply (s : State) (r : TaskStore.PollReply) : State :=
  match r.success, r.data with
  | true, some d =>
    let merged := TaskStore.mergeProgress s.currentProgress d
    if d.status == some "执行完成" || d.status == some "执行失败"
        || !(d.isRunning.getD false) then
      { s with
          isRunning := false
          currentProgress := { merged with isRunning := false }
          pollingActive := false }
    else { s with currentProgress := merged }
  | _, _ => s

/-- The interval scheduler for the simple store. -/
def tickStep (s : State) (o : TaskStore.TickOutcome) : State :=
  if s.pollingActive then
    match o with
    | .netFail => s
    | .reply r => tickApply s r
  else s

/-- A run of scheduled ticks for the simple store. -/
def runTicks (s : State) (outs : List TaskStore.TickOutcome) : State :=
  outs.foldl tickStep s

/-- A concrete mid-run simple-store state with the poller installed. -/
def running : State :=
  { isRunning := true
    currentProgress := { current := 1, total := 5, status := "执行中", isRunning := true }
    pollingActive := true }

end SimpleTaskStore

namespace TaskStore

/-- One operator-triggered queue mutation. -/
inductive QueueOp where
  | add (t : NewTask) (newId : String)
  | remove (id : String)
  | update (id : String) (u : TaskUpdate)
  | moveUp (id : String)
  | moveDown (id : String)
  | clear
deriving Repr, DecidableEq

/-- Dispatch one queue mutation to the store method it names; the
store's state after the call, whether or not the method threw (every
throw precedes every mutation, so the state component is the state the
store is left in either way). -/
def applyOp (s : MState) : QueueOp → MState
  | .add t newId => (addTask s t newId).1
  | .remove id => (removeTask s id).1
  | .update id u => (updateTask s id u).1
  | .moveUp id => (moveTaskUp s id).1
  | .moveDown id => (moveTaskDown s id).1
  | .clear => (clearQueue s).1

/-- Apply a sequence of queue mutations in order. -/
def applyOps (s : MState) (ops : List QueueOp) : MState :=
  ops.foldl applyOp s

/-- The store state at creation: empty queue, idle, zeroed progress. -/
def initialState : State :=
  { taskQueue := []
    isRunning := false
    currentProgress := { current := 0, total := 0, status := "", isRunning := false }
    error := none
    pollingActive := false }

/-- The mutation-layer slice of the store at creation. -/
def initialMState : MState :=
  { taskQueue := [], isRunning := false }

/-- A job as the spec's data model describes it: `runCount` present and
positive. -/
def goodTask (t : Task) : Bool :=
  match t.run_count with
  | some n => n != 0
  | none => false

/-- A queue slot holding a job as the spec's data model describes it. -/
def goodEntry (e : Entry) : Bool :=
  match e with
  | some t => goodTask t
  | none => false

/-- An operation whose payload respects the data model: inserted and
updated run counts are present and positive. -/
def validOp : QueueOp → Bool
  | .add t _ => match t.run_count with
                | some n => n != 0
                | none => false
  | .update _ u => match u.run_count with
                   | some n => n != 0
                   | none => true
  | _ => true

/-- An operation that does not take `moveTaskDown`'s corrupting
not-found branch in the given state (every other operation is safe
everywhere). -/
def safeOp (s : MState) : QueueOp → Bool
  | .moveDown id =>
    match scanIdx id s.taskQueue, s.taskQueue with
    | .notFound, _ :: _ => false
    | _, _ => true
  | _ => true

/-- A sequence of operations each safe in the state it is applied to. -/
def safeOps : MState → List QueueOp → Bool
  | _, [] => true
  | s, op :: rest => safeOp s op && safeOps (applyOp s op) rest

/-- The claimed aggregate: the sum of `run_count` over the queue. -/
def sumRunCount (l : List Task) : Nat :=
  l.foldl (fun sum task => sum + task.run_count.getD 0) 0

/-- A concrete mid-run store state used as a test input: two queued
jobs, a run active, the poller installed. -/
def runningState : State :=
  { taskQueue :=
      [ { id := "t1", name := "委托A", run_count := some 2, status := "active" }
      , { id := "t2", name := "委托B", run_count := some 3, status := "pending" } ]
    isRunning := true
    currentProgress := { current := 1, total := 5, status := "执行中", isRunning := true }
    error := none
    pollingActive := true }

/-- The state `runningState` settles to after an acknowledged stop. -/
def stoppedState : State :=
  (stopExecution runningState .ok).1

/-- The mutation-layer slice of `runningState`: the same two queued
jobs (every slot defined) and the run flag set. -/
def runningMState : MState :=
  { taskQueue := runningState.taskQueue.map (fun t => some t)
    isRunning := runningState.isRunning }

/-- A poll payload whose `total` (9) conflicts with the local total (5)
of `runningState`, with a non-terminal status. -/
def conflictPatch : ProgressPatch :=
  { current := some 2, total := some 9, status := some "运行中", isRunning := some true }

/-- A non-terminal poll payload as a late in-flight response: still
running, no `total` field. -/
def lateReplyPatch : ProgressPatch :=
  { current := some 2, total := none, status := some "运行中", isRunning := some true }

/-- A poll payload whose `isRunning` is false while its status label is
neither of the two terminal labels. -/
def notRunningPatch : ProgressPatch :=
  { current := some 3, total := some 5, status := some "执行中", isRunning := some false }

/-- A sample valid mutation sequence: two inserts, a reorder, an edit,
a removal. -/
def sampleOps : List QueueOp :=
  [ QueueOp.add { name := "A", run_count := some 2 } "t1"
  , QueueOp.add { name := "B", run_count := some 3 } "t2"
  , QueueOp.moveUp "t2"
  , QueueOp.update "t1" { name := none, run_count := some 5, status := none }
  , QueueOp.remove "t2" ]

end TaskStore

namespace TaskStore

theorem foldl_add_eq {α : Type} (f : α → Nat) (l : List α) (n : Nat) :
    l.foldl (fun a t => a + f t) n = n + (l.map f).sum := by
  induction l generalizing n with
  | nil => simp
  | cons x xs ih => simp [List.foldl_cons, ih, Nat.add_assoc]

theorem mem_of_getElem?_eq {α : Type} {l : List α} {i : Nat} {a : α}
    (h : l[i]? = some a) : a ∈ l := by
  have hi : i < l.length := by
    by_contra hlen
    push_neg at hlen
    rw [List.getElem?_eq_none hlen] at h
    exact Option.noConfusion h
  rw [List.getElem?_eq_getElem hi] at h
  cases h
  exact List.getElem_mem hi

theorem mem_eraseIdx {α : Type} {l : List α} {i : Nat} {a : α}
    (h : a ∈ l.eraseIdx i) : a ∈ l := by
  induction l generalizing i with
  | nil => simp [List.eraseIdx] at h
  | cons x xs ih =>
    cases i with
    | zero =>
      exact List.mem_cons_of_mem _ (by simpa [List.eraseIdx] using h)
    | succ j =>
      simp only [List.eraseIdx, List.mem_cons] at h
      rcases h with h | h
      · exact h ▸ List.mem_cons_self _ _
      · exact List.mem_cons_of_mem _ (ih h)

theorem scan_found_mem {taskId : String} {q : List Entry} {i : Nat} {t : Task}
    (h : scanIdx taskId q = .found i t) : some t ∈ q := by
  induction q generalizing i with
  | nil => simp [scanIdx] at h
  | cons e es ih =>
    cases e with
    | none => simp [scanIdx] at h
    | some x =>
      simp only [scanIdx] at h
      by_cases hx : x.id == taskId
      · rw [if_pos hx] at h
        injection h with h1 h2
        subst h2
        exact List.mem_cons_self _ _
      · rw [if_neg hx] at h
        rcases hr : scanIdx taskId es with ⟨j, u⟩ | _ | _ <;> simp only [hr] at h
        · injection h with h1 h2
          subst h2
          exact List.mem_cons_of_mem _ (ih hr)
        · exact absurd h (by simp)
        · exact absurd h (by simp)

theorem scanIdx_notFound_of_absent {taskId : String} {q : List Entry}
    (h : ∀ e ∈ q, ∃ t, e = some t ∧ (t.id == taskId) = false) :
    scanIdx taskId q = .notFound := by
  induction q with
  | nil => rfl
  | cons e es ih =>
    obtain ⟨t, rfl, hne⟩ := h e (List.mem_cons_self _ _)
    rw [scanIdx, if_neg (by simp [hne]),
        ih (fun e' he' => h e' (List.mem_cons_of_mem _ he'))]

theorem mem_swapAt {α : Type} {l : List α} {i j : Nat} {a : α}
    (h : a ∈ swapAt l i j) : a ∈ l := by
  unfold swapAt at h
  cases hi : l[i]? with
  | none => simp only [hi] at h; exact h
  | some x =>
    cases hj : l[j]? with
    | none => simp only [hi, hj] at h; exact h
    | some y =>
      simp only [hi, hj] at h
      rcases List.mem_or_eq_of_mem_set h with h' | rfl
      · rcases List.mem_or_eq_of_mem_set h' with h'' | rfl
        · exact h''
        · exact mem_of_getElem?_eq hj
      · exact mem_of_getElem?_eq hi

theorem goodTask_applyUpdate {t : Task} {u : TaskUpdate}
    (ht : goodTask t = true)
    (hu : (match u.run_count with
           | some n => n != 0
           | none => true) = true) :
    goodTask (applyUpdate t u) = true := by
  cases hrc : u.run_count with
  | none => simpa [goodTask, applyUpdate, hrc] using ht
  | some n =>
    rw [hrc] at hu
    simpa [goodTask, applyUpdate, hrc] using hu

theorem goodQueue_applyOp {s : MState} {op : QueueOp}
    (hop : validOp op = true)
    (hsafe : safeOp s op = true)
    (h : ∀ e ∈ s.taskQueue, goodEntry e = true) :
    ∀ e ∈ (applyOp s op).taskQueue, goodEntry e = true := by
  cases op with
  | add t newId =>
    intro x hx
    simp only [applyOp, addTask, List.mem_append, List.mem_singleton] at hx
    rcases hx with hx | rfl
    · exact h x hx
    · simpa [goodEntry, goodTask, initTask, validOp] using hop
  | remove id =>
    intro x hx
    simp only [applyOp, removeTask] at hx
    rcases hscan : scanIdx id s.taskQueue with ⟨i, t⟩ | _ | _ <;>
        simp only [hscan] at hx
    · exact h x (mem_eraseIdx hx)
    · exact h x hx
    · exact h x hx
  | update id u =>
    intro x hx
    simp only [applyOp, updateTask] at hx
    rcases hscan : scanIdx id s.taskQueue with ⟨i, t⟩ | _ | _ <;>
        simp only [hscan] at hx
    · rcases List.mem_or_eq_of_mem_set hx with hx' | rfl
      · exact h x hx'
      · have ht : goodTask t = true := by
          simpa [goodEntry] using h (some t) (scan_found_mem hscan)
        have hgu : goodTask (applyUpdate t u) = true :=
          goodTask_applyUpdate ht (by simpa [validOp] using hop)
        simpa [goodEntry] using hgu
    · exact h x hx
    · exact h x hx
  | moveUp id =>
    intro x hx
    simp only [applyOp, moveTaskUp] at hx
    rcases hscan : scanIdx id s.taskQueue with ⟨i, t⟩ | _ | _ <;>
        simp only [hscan] at hx
    · by_cases hi : 0 < i
      · simp only [hi, if_true] at hx
        exact h x (mem_swapAt hx)
      · simp only [hi, if_false] at hx
        exact h x hx
    · exact h x hx
    · exact h x hx
  | moveDown id =>
    intro x hx
    simp only [applyOp, moveTaskDown] at hx
    rcases hscan : scanIdx id s.taskQueue with ⟨i, t⟩ | _ | _ <;>
        simp only [hscan] at hx
    · by_cases hi : i + 1 < s.taskQueue.length
      · simp only [hi, if_true] at hx
        exact h x (mem_swapAt hx)
      · simp only [hi, if_false] at hx
        exact h x hx
    · rcases hq : s.taskQueue with _ | ⟨e, es⟩
      · simp [hq] at hx
      · rw [hq] at hscan
        simp [safeOp, hscan, hq] at hsafe
    · exact h x hx
  | clear =>
    intro x hx
    simp only [applyOp, clearQueue] at hx
    by_cases hr : s.isRunning
    · rw [if_pos hr] at hx; exact h x hx
    · rw [if_neg hr] at hx; simp at hx

theorem goodQueue_applyOps {s : MState} {ops : List QueueOp}
    (hops : ops.all validOp = true)
    (hsafe : safeOps s ops = true)
    (h : ∀ e ∈ s.taskQueue, goodEntry e = true) :
    ∀ e ∈ (applyOps s ops).taskQueue, goodEntry e = true := by
  induction ops generalizing s with
  | nil => exact h
  | cons op rest ih =>
    simp only [List.all_cons, Bool.and_eq_true] at hops
    simp only [safeOps, Bool.and_eq_true] at hsafe
    exact ih hops.2 hsafe.2 (goodQueue_applyOp hops.1 hsafe.1 h)

theorem totalTasks_eq_sum_of_good {l : List Task}
    (h : ∀ t ∈ l, goodTask t = true) :
    totalTasks l = sumRunCount l := by
  have h1 : totalTasks l =
      l.foldl (fun a t => a + (match t.run_count with
                               | some n => if n == 0 then 1 else n
                               | none => 1)) 0 := rfl
  have h2 : sumRunCount l = l.foldl (fun a t => a + t.run_count.getD 0) 0 := rfl
  rw [h1, h2, foldl_add_eq, foldl_add_eq]
  have hmap :
      List.map (fun t : Task => match t.run_count with
                                | some n => if n == 0 then 1 else n
                                | none => 1) l
        = List.map (fun t : Task => t.run_count.getD 0) l := by
    apply List.map_congr_left
    intro t ht
    have := h t ht
    cases hrc : t.run_count with
    | none => rw [goodTask, hrc] at this; simp at this
    | some n =>
      rw [goodTask, hrc] at this
      simp only [ne_eq, bne_iff_ne] at this
      simp [hrc, this]
  rw [hmap]

end TaskStore

namespace TaskStore

theorem clean_of_good {q : List Entry}
    (h : ∀ e ∈ q, goodEntry e = true) : ∀ e ∈ q, e.isSome = true := by
  intro e he
  have := h e he
  cases e with
  | none => simp [goodEntry] at this
  | some t => rfl

theorem good_filterMap {q : List Entry}
    (h : ∀ e ∈ q, goodEntry e = true) :
    ∀ t ∈ q.filterMap id, goodTask t = true := by
  intro t ht
  rcases List.mem_filterMap.mp ht with ⟨e, he, hid⟩
  have he' : e = some t := by simpa using hid
  subst he'
  simpa [goodEntry] using h _ he

theorem clean_eq_map_some {q : List Entry}
    (h : ∀ e ∈ q, e.isSome = true) : q = (q.filterMap id).map some := by
  induction q with
  | nil => rfl
  | cons e es ih =>
    obtain ⟨t, rfl⟩ : ∃ t, e = some t := by
      have := h e (List.mem_cons_self _ _)
      cases e with
      | none => simp at this
      | some t => exact ⟨t, rfl⟩
    have hes := ih (fun e' he' => h e' (List.mem_cons_of_mem _ he'))
    rw [show (some t :: es).filterMap id = t :: es.filterMap id by
          simp [List.filterMap_cons]]
    rw [List.map_cons, ← hes]

theorem totalTasksQ_foldl_map_some (l : List Task) (n : Nat) :
    (l.map some).foldl
      (fun acc e =>
        match acc, e with
        | some a, some task =>
          some (a + (match task.run_count with
                     | some m => if m == 0 then 1 else m
                     | none => 1))
        | _, _ => none) (some n)
      = some (l.foldl
          (fun a task =>
            a + (match task.run_count with
                 | some m => if m == 0 then 1 else m
                 | none => 1)) n) := by
  induction l generalizing n with
  | nil => rfl
  | cons t ts ih =>
    simp only [List.map_cons, List.foldl_cons]
    exact ih _

theorem totalTasksQ_eq_totalTasks {q : List Entry}
    (h : ∀ e ∈ q, e.isSome = true) :
    totalTasksQ q = some (totalTasks (q.filterMap id)) := by
  conv_lhs => rw [totalTasksQ, clean_eq_map_some h]
  exact totalTasksQ_foldl_map_some (q.filterMap id) 0

theorem runTicks_inactive {s : State} (h : s.pollingActive = false)
    (outs : List TickOutcome) : runTicks s outs = s := by
  induction outs with
  | nil => rfl
  | cons o os ih =>
    have hstep : tickStep s o = s := by
      cases o <;> simp [tickStep, h]
    show List.foldl tickStep (tickStep s o) os = s
    rw [hstep]
    exact ih

end TaskStore

namespace SimpleTaskStore

theorem simple_runTicks_inactive {s : State} (h : s.pollingActive = false)
    (outs : List TaskStore.TickOutcome) : runTicks s outs = s := by
  induction outs with
  | nil => rfl
  | cons o os ih =>
    have hstep : tickStep s o = s := by
      cases o <;> simp [tickStep, h]
    show List.foldl tickStep (tickStep s o) os = s
    rw [hstep]
    exact ih

/-- The Boolean terminal test of the simple store's callback, as a
proposition: one of the two terminal labels, or an incoming `isRunning`
that is not literally `true` (JS `!undefined` is `true`). -/
theorem simple_terminal_iff (d : TaskStore.ProgressPatch) :
    (d.status == some "执行完成" || d.status == some "执行失败"
        || !(d.isRunning.getD false)) = true
      ↔ (d.status = some "执行完成" ∨ d.status = some "执行失败"
          ∨ d.isRunning ≠ some true) := by
  cases hr : d.isRunning with
  | none => simp [Bool.or_eq_true, beq_iff_eq]
  | some b => cases b <;> simp [Bool.or_eq_true, beq_iff_eq]

end SimpleTaskStore

namespace TaskStore

/-- C1 (counterexample): `addTask` invoked while a run is active
(`runningMState.isRunning = true`) does not fail and does not leave the
queue unchanged — there is no `QueueLocked` guard. -/
theorem addTask_while_running_cex :
    runningMState.isRunning = true ∧
    (addTask runningMState { name := "委托C", run_count := some 1 } "t3").1.taskQueue
      ≠ runningMState.taskQueue := by
  decide

/-- C1 (amended): the queue mutations never consult the run state —
`addTask`, `removeTask`, `updateTask`, `moveTaskUp` and `moveTaskDown`
produce, at any run flag, the same queue and the same thrown-or-not
outcome (the flag itself just passes through), so none of them is ever
rejected with a `QueueLocked` error; only `clearQueue` reads the run
flag, and it is a silent no-op (not an error) while a run is active. -/
theorem queue_mutations_ignore_run_state (s : MState) (b : Bool) (t : NewTask)
    (newId id1 id2 id3 id4 : String) (u : TaskUpdate) :
    addTask { s with isRunning := b } t newId
        = ({ taskQueue := s.taskQueue ++ [some (initTask t newId)], isRunning := b }, false)
    ∧ removeTask { s with isRunning := b } id1
        = ({ (removeTask s id1).1 with isRunning := b }, (removeTask s id1).2)
    ∧ updateTask { s with isRunning := b } id2 u
        = ({ (updateTask s id2 u).1 with isRunning := b }, (updateTask s id2 u).2)
    ∧ moveTaskUp { s with isRunning := b } id3
        = ({ (moveTaskUp s id3).1 with isRunning := b }, (moveTaskUp s id3).2)
    ∧ moveTaskDown { s with isRunning := b } id4
        = ({ (moveTaskDown s id4).1 with isRunning := b }, (moveTaskDown s id4).2)
    ∧ clearQueue { s with isRunning := b }
        = ({ taskQueue := if b then s.taskQueue else [], isRunning := b }, false) := by
  refine ⟨rfl, ?_, ?_, ?_, ?_, ?_⟩
  · rcases hscan : scanIdx id1 s.taskQueue with ⟨i, t'⟩ | _ | _ <;>
      simp [removeTask, hscan]
  · rcases hscan : scanIdx id2 s.taskQueue with ⟨i, t'⟩ | _ | _ <;>
      simp [updateTask, hscan]
  · rcases hscan : scanIdx id3 s.taskQueue with ⟨i, t'⟩ | _ | _
    · by_cases hi : 0 < i <;> simp [moveTaskUp, hscan, hi]
    · simp [moveTaskUp, hscan]
    · simp [moveTaskUp, hscan]
  · rcases hscan : scanIdx id4 s.taskQueue with ⟨i, t'⟩ | _ | _
    · by_cases hi : i + 1 < s.taskQueue.length <;> simp [moveTaskDown, hscan, hi]
    · rcases hq : s.taskQueue with _ | ⟨e, es⟩
      · rw [hq] at hscan
        simp [moveTaskDown, hscan, hq]
      · rw [hq] at hscan
        simp [moveTaskDown, hscan, hq]
    · simp [moveTaskDown, hscan]
  · cases b <;> simp [clearQueue]

/-- C2 (counterexample): when the backend stop request fails,
`stopExecution` does not settle the store — `isRunning` stays true, the
poller keeps its interval, and the snapshot is not frozen to the
stopped label. -/
theorem stopExecution_failure_cex :
    (stopExecution runningState (.fail "网络错误")).1.isRunning = true
    ∧ (stopExecution runningState (.fail "网络错误")).1.pollingActive = true
    ∧ (stopExecution runningState (.fail "网络错误")).1.currentProgress.status
        ≠ "已停止" := by
  decide

/-- C2 (amended): while a run is active, `stopExecution` always issues
the stop request; on acknowledgment it settles — `isRunning` false,
snapshot frozen with status 已停止 and `isRunning` false, poller
cleared — but on a failed stop request it only records the error
message and leaves the run flag, the snapshot and the poller as they
were. -/
theorem stopExecution_settles_only_on_ack (s : State) (m : String)
    (h : s.isRunning = true) :
    stopExecution s .ok =
      ({ s with
          isRunning := false
          currentProgress :=
            { s.currentProgress with isRunning := false, status := "已停止" }
          pollingActive := false }, true)
    ∧ stopExecution s (.fail m) = ({ s with error := some m }, true) := by
  constructor <;> simp [stopExecution, h]

/-- C2 witness: the amended stop behavior evaluated at `runningState`. -/
theorem stopExecution_settles_only_on_ack_witness :
    stopExecution runningState .ok =
      ({ runningState with
          isRunning := false
          currentProgress :=
            { runningState.currentProgress with isRunning := false, status := "已停止" }
          pollingActive := false }, true)
    ∧ stopExecution runningState (.fail "网络错误")
        = ({ runningState with error := some "网络错误" }, true) :=
  stopExecution_settles_only_on_ack runningState "网络错误" rfl

/-- C9: a second `stopExecution` arriving when the store is already
idle is a no-op — the state is returned unchanged and no backend stop
request is issued (the returned flag is false); `stopExecution` never
throws by construction.  The second conjunct covers the literal
two-calls-in-a-row shape: after an acknowledged stop, another stop is
a request-free no-op whatever the first state was. -/
theorem stopExecution_idempotent (s s2 : State) (o o2 : StopOutcome)
    (h : s.isRunning = false) :
    stopExecution s o = (s, false)
    ∧ stopExecution (stopExecution s2 .ok).1 o2 = ((stopExecution s2 .ok).1, false) := by
  constructor
  · simp [stopExecution, h]
  · by_cases hr : s2.isRunning <;> simp [stopExecution, hr]

/-- C9 witness: the idempotence theorem at concrete states. -/
theorem stopExecution_idempotent_witness :
    stopExecution initialState (.fail "网络错误") = (initialState, false)
    ∧ stopExecution (stopExecution runningState .ok).1 .ok
        = ((stopExecution runningState .ok).1, false) :=
  stopExecution_idempotent initialState runningState (.fail "网络错误") .ok rfl

/-- C10 (counterexample): on a non-empty queue whose slots all hold
tasks, an absent id makes `removeTask` a silent no-op, but
`moveTaskDown` does NOT leave the queue unchanged: `findIndex`'s `-1`
passes the `index < length - 1` guard and the destructuring swap
overwrites slot 0 with `undefined` — without raising anything. -/
theorem moveTaskDown_absent_corrupts_cex :
    removeTask runningMState "zzz" = (runningMState, false)
    ∧ (moveTaskDown runningMState "zzz").2 = false
    ∧ (moveTaskDown runningMState "zzz").1.taskQueue ≠ runningMState.taskQueue
    ∧ (moveTaskDown runningMState "zzz").1.taskQueue.head? = some none := by
  decide

/-- C10 (amended): for an id that occurs nowhere in a queue whose slots
all hold tasks, `removeTask`, `updateTask` and `moveTaskUp` return the
state unchanged and raise nothing; `moveTaskDown` also raises nothing,
and is a no-op only on the empty queue — on a non-empty queue it
replaces slot 0 with `undefined`, leaving the rest of the queue
intact. -/
theorem absent_id_mutation_effects (s : MState) (taskId : String) (u : TaskUpdate)
    (h : s.taskQueue.all
        (fun e => match e with
                  | some t => t.id != taskId
                  | none => false) = true) :
    removeTask s taskId = (s, false)
    ∧ updateTask s taskId u = (s, false)
    ∧ moveTaskUp s taskId = (s, false)
    ∧ moveTaskDown s taskId
        = (if s.taskQueue.isEmpty then (s, false)
           else ({ s with taskQueue := none :: s.taskQueue.tail }, false)) := by
  have habs : ∀ e ∈ s.taskQueue, ∃ t, e = some t ∧ (t.id == taskId) = false := by
    intro e he
    have := List.all_eq_true.mp h e he
    cases e with
    | none => simp at this
    | some t =>
      exact ⟨t, rfl, by simpa [bne_iff_ne, beq_eq_false_iff_ne] using this⟩
  have hscan := scanIdx_notFound_of_absent habs
  refine ⟨?_, ?_, ?_, ?_⟩
  · simp [removeTask, hscan]
  · simp [updateTask, hscan]
  · simp [moveTaskUp, hscan]
  · rcases hq : s.taskQueue with _ | ⟨e, es⟩
    · rw [hq] at hscan
      simp [moveTaskDown, hscan, hq]
    · rw [hq] at hscan
      simp [moveTaskDown, hscan, hq]

/-- C10 witness: the absent-id theorem at a concrete two-task state and
an id not present in its queue — including the corrupted queue
`moveTaskDown` leaves behind. -/
theorem absent_id_mutation_effects_witness :
    removeTask runningMState "zzz" = (runningMState, false)
    ∧ updateTask runningMState "zzz" { name := some "X", run_count := none, status := none }
        = (runningMState, false)
    ∧ moveTaskUp runningMState "zzz" = (runningMState, false)
    ∧ moveTaskDown runningMState "zzz"
        = (if runningMState.taskQueue.isEmpty then (runningMState, false)
           else ({ runningMState with
                    taskQueue := none :: runningMState.taskQueue.tail }, false)) :=
  absent_id_mutation_effects runningMState "zzz"
    { name := some "X", run_count := none, status := none } (by decide)

end TaskStore

namespace TaskStore

/-- C3 (counterexample): in `useTaskStore`, reconciling a snapshot with
`isRunning = false` but a status label outside {completed, failed} does
NOT settle the store and does NOT stop the poller — the terminal test
there looks only at the status label. -/
theorem tick_ignores_isRunning_false_cex :
    runningState.pollingActive = true
    ∧ runningState.isRunning = true
    ∧ (tickApply runningState ⟨true, some notRunningPatch⟩).pollingActive = true
    ∧ (tickApply runningState ⟨true, some notRunningPatch⟩).isRunning = true := by
  decide

/-- C4 (counterexample): ten consecutive transport failures on poll
ticks leave `runningState` entirely unchanged — no failure counter, no
`PollingExhausted`, no forced error: the poller keeps its interval and
the error slot stays empty. -/
theorem ten_failures_keep_polling_cex :
    runTicks runningState (List.replicate 10 TickOutcome.netFail) = runningState
    ∧ runningState.error = none
    ∧ runningState.pollingActive = true
    ∧ runningState.isRunning = true := by
  decide

/-- C4 (amended): failed poll ticks never stop polling and never change
the store — any number of consecutive transport failures is absorbed;
there is no consecutive-failure threshold and no exhaustion condition. -/
theorem failed_ticks_never_exhaust (s : State) (n : Nat) :
    runTicks s (List.replicate n TickOutcome.netFail) = s := by
  induction n with
  | zero => rfl
  | succ k ih =>
    rw [List.replicate_succ]
    show List.foldl tickStep (tickStep s TickOutcome.netFail) (List.replicate k TickOutcome.netFail) = s
    have hstep : tickStep s TickOutcome.netFail = s := by
      simp [tickStep]
    rw [hstep]
    exact ih

/-- C5 (counterexample): reconciling a snapshot whose `total` (9)
differs from the locally recorded total (5) overwrites the local
`total` — the object spread applies every field of the snapshot. -/
theorem total_overwritten_cex :
    runningState.currentProgress.total = 5
    ∧ (tickApply runningState ⟨true, some conflictPatch⟩).currentProgress.total = 9 := by
  decide

/-- C5 (amended): on a non-terminal snapshot the reconciliation is the
plain object-spread merge — `current`, `statusLabel` and `isRunning`
are applied, and `total` is applied exactly the same way: a snapshot
`total` differing from the local one replaces it. -/
theorem snapshot_merge_overwrites_total (s : State) (d : ProgressPatch) (n : Nat)
    (h1 : d.total = some n)
    (h2 : n ≠ s.currentProgress.total)
    (h3 : d.status ≠ some "completed")
    (h4 : d.status ≠ some "failed") :
    (tickApply s ⟨true, some d⟩).currentProgress = mergeProgress s.currentProgress d
    ∧ (mergeProgress s.currentProgress d).total = n := by
  have hb : (d.status == some "completed" || d.status == some "failed") = false := by
    simp [h3, h4]
  constructor
  · simp [tickApply, hb]
  · simp [mergeProgress, h1]

/-- C5 witness: the merge theorem at `runningState` and the conflicting
payload `conflictPatch`. -/
theorem snapshot_merge_overwrites_total_witness :
    (tickApply runningState ⟨true, some conflictPatch⟩).currentProgress
        = mergeProgress runningState.currentProgress conflictPatch
    ∧ (mergeProgress runningState.currentProgress conflictPatch).total = 9 :=
  snapshot_merge_overwrites_total runningState conflictPatch 9 rfl (by decide)
    (by decide) (by decide)

/-- C6 (counterexample): `startExecution` called while a run is already
active (with a non-empty queue and an accepting backend) is not
rejected — it does not throw (returned flag `false`) and it resets the
progress snapshot; there is no `AlreadyRunning` guard. -/
theorem start_while_running_not_rejected_cex :
    runningState.isRunning = true
    ∧ (startExecution runningState .accepted).2 = false
    ∧ (startExecution runningState .accepted).1.currentProgress.current = 0 := by
  decide

/-- C6 (amended): `startExecution` on an empty queue throws
(任务队列为空), leaving the queue untouched and only recording the
error and clearing the run flags; but there is no idle-state
precondition — with a non-empty queue its outcome is identical whether
or not a run was already active. -/
theorem startExecution_preconditions (s : State) (o : SubmitOutcome) :
    (s.taskQueue = [] →
      startExecution s o =
        ({ s with
            error := some "任务队列为空"
            isRunning := false
            currentProgress := { s.currentProgress with isRunning := false } }, true))
    ∧ (s.taskQueue ≠ [] →
        startExecution { s with isRunning := true } o
          = startExecution { s with isRunning := false } o) := by
  refine ⟨fun h => ?_, fun h => ?_⟩
  · simp [startExecution, h]
  · obtain ⟨q, r, p, e, pa⟩ := s
    cases q with
    | nil => exact absurd rfl h
    | cons a as => cases o <;> rfl

/-- C6 witness: the precondition theorem at the empty initial state and
at the active `runningState`. -/
theorem startExecution_preconditions_witness :
    startExecution initialState .accepted =
      ({ initialState with
          error := some "任务队列为空"
          isRunning := false
          currentProgress := { initialState.currentProgress with isRunning := false } }, true)
    ∧ startExecution { runningState with isRunning := true } .accepted
        = startExecution { runningState with isRunning := false } .accepted :=
  ⟨(startExecution_preconditions initialState .accepted).1 rfl,
   (startExecution_preconditions runningState .accepted).2 (by decide)⟩

/-- C7 (counterexample): after `stopExecution` has cancelled the poller
and frozen the snapshot at 已停止, an in-flight poll response that then
arrives is NOT discarded — the callback body has no cancellation check,
so it overwrites the stopped snapshot. -/
theorem late_reply_applied_cex :
    stoppedState.pollingActive = false
    ∧ stoppedState.currentProgress.status = "已停止"
    ∧ (tickApply stoppedState ⟨true, some lateReplyPatch⟩).currentProgress
        ≠ stoppedState.currentProgress := by
  decide

/-- C7 (amended): cancelling the poller only stops the scheduler — with
no interval installed no further scheduled tick changes the state — but
a response already in flight at cancellation is still applied on
arrival: the callback merges it into the snapshot unconditionally. -/
theorem cancellation_stops_scheduler_not_inflight (s : State)
    (outs : List TickOutcome) (d : ProgressPatch)
    (h : s.pollingActive = false)
    (h3 : d.status ≠ some "completed")
    (h4 : d.status ≠ some "failed") :
    runTicks s outs = s
    ∧ (tickApply s ⟨true, some d⟩).currentProgress = mergeProgress s.currentProgress d := by
  refine ⟨runTicks_inactive h outs, ?_⟩
  have hb : (d.status == some "completed" || d.status == some "failed") = false := by
    simp [h3, h4]
  simp [tickApply, hb]

/-- C7 witness: the cancellation theorem at the stopped state and the
late in-flight payload. -/
theorem cancellation_stops_scheduler_not_inflight_witness :
    runTicks stoppedState [TickOutcome.netFail, TickOutcome.reply ⟨true, some lateReplyPatch⟩]
        = stoppedState
    ∧ (tickApply stoppedState ⟨true, some lateReplyPatch⟩).currentProgress
        = mergeProgress stoppedState.currentProgress lateReplyPatch :=
  cancellation_stops_scheduler_not_inflight stoppedState
    [TickOutcome.netFail, TickOutcome.reply ⟨true, some lateReplyPatch⟩]
    lateReplyPatch (by decide) (by decide) (by decide)

/-- C8 (counterexample): a two-operation sequence with data-model-valid
payloads — one insert, then `moveTaskDown` with an absent id — reaches
a queue whose slot 0 is `undefined`, where evaluating the `totalTasks`
reduce throws instead of producing the sum of run counts: the invariant
does not hold at every reachable queue state. -/
theorem totalRuns_invariant_cex :
    ([ QueueOp.add { name := "A", run_count := some 2 } "t1"
     , QueueOp.moveDown "zzz" ].all validOp = true)
    ∧ totalTasksQ (applyOps initialMState
        [ QueueOp.add { name := "A", run_count := some 2 } "t1"
        , QueueOp.moveDown "zzz" ]).taskQueue = none := by
  decide

/-- C8 (amended): for every queue state reachable from the initial
store by a sequence of add / remove / update / moveUp / moveDown /
clear operations whose payloads carry present, positive run counts and
which never takes `moveTaskDown`'s absent-id corruption branch, the
`totalTasks` reduce evaluates (throws nothing) and equals the sum of
`run_count` over the tasks in the queue. -/
theorem totalRuns_invariant_reachable (ops : List QueueOp)
    (hv : ops.all validOp = true)
    (hs : safeOps initialMState ops = true) :
    totalTasksQ (applyOps initialMState ops).taskQueue
      = some (sumRunCount ((applyOps initialMState ops).taskQueue.filterMap id)) := by
  have hgood : ∀ e ∈ (applyOps initialMState ops).taskQueue, goodEntry e = true :=
    goodQueue_applyOps hv hs (by intro e he; simp [initialMState] at he)
  rw [totalTasksQ_eq_totalTasks (clean_of_good hgood)]
  exact congrArg some (totalTasks_eq_sum_of_good (good_filterMap hgood))

/-- C8 witness: the invariant evaluated on a five-operation sequence. -/
theorem totalRuns_invariant_reachable_witness :
    totalTasksQ (applyOps initialMState sampleOps).taskQueue
      = some (sumRunCount ((applyOps initialMState sampleOps).taskQueue.filterMap id)) :=
  totalRuns_invariant_reachable sampleOps (by decide) (by decide)

end TaskStore

namespace SimpleTaskStore

/-- C3 (amended): in `useSimpleTaskStore` a reconciled snapshot is
terminal exactly when its status label is 执行完成 or 执行失败 or its
`isRunning` is anything but literally `true`; reconciling a terminal
snapshot clears the run flag, freezes `isRunning` false into the
snapshot, uninstalls the poller, and afterwards no scheduled tick can
fire.  (The sibling `useTaskStore` callback does not satisfy this: see
the C3 counterexample.) -/
theorem terminal_detection_settles (s : State) (d : TaskStore.ProgressPatch)
    (h : s.pollingActive = true)
    (outs : List TaskStore.TickOutcome) :
    ((tickApply s ⟨true, some d⟩).pollingActive = false
      ↔ (d.status = some "执行完成" ∨ d.status = some "执行失败"
          ∨ d.isRunning ≠ some true))
    ∧ ((d.status = some "执行完成" ∨ d.status = some "执行失败"
          ∨ d.isRunning ≠ some true) →
        (tickApply s ⟨true, some d⟩).isRunning = false
        ∧ (tickApply s ⟨true, some d⟩).currentProgress.isRunning = false
        ∧ runTicks (tickApply s ⟨true, some d⟩) outs = tickApply s ⟨true, some d⟩) := by
  have hiff := simple_terminal_iff d
  by_cases hc : (d.status == some "执行完成" || d.status == some "执行失败"
      || !(d.isRunning.getD false)) = true
  · have hprop := hiff.mp hc
    have happ : tickApply s ⟨true, some d⟩ =
        { isRunning := false
          currentProgress :=
            { TaskStore.mergeProgress s.currentProgress d with isRunning := false }
          pollingActive := false } := by
      simp [tickApply, hc]
    rw [happ]
    exact ⟨⟨fun _ => hprop, fun _ => rfl⟩,
           fun _ => ⟨rfl, rfl, simple_runTicks_inactive rfl outs⟩⟩
  · have hc' : (d.status == some "执行完成" || d.status == some "执行失败"
        || !(d.isRunning.getD false)) = false := by
      simpa using hc
    have hnprop : ¬(d.status = some "执行完成" ∨ d.status = some "执行失败"
        ∨ d.isRunning ≠ some true) := by
      intro hp
      rw [hiff.mpr hp] at hc'
      exact Bool.noConfusion hc'
    have happ : tickApply s ⟨true, some d⟩ =
        { s with currentProgress := TaskStore.mergeProgress s.currentProgress d } := by
      simp [tickApply, hc']
    rw [happ]
    exact ⟨iff_of_false (by simp [h]) hnprop, fun hp => absurd hp hnprop⟩

/-- C3 witness: the simple store settles and uninstalls the poller on a
snapshot whose `isRunning` is false. -/
theorem terminal_detection_settles_witness :
    running.pollingActive = true
    ∧ (tickApply running ⟨true, some TaskStore.notRunningPatch⟩).pollingActive = false :=
  ⟨rfl, ((terminal_detection_settles running TaskStore.notRunningPatch rfl []).1).mpr
          (by decide)⟩

end SimpleTaskStore
